import Mathlib

/-!
Verification of the real-time community chat synchronization layer and the
streaming-radio reconnection state machine of the queen-code desktop shell.

The chat definitions are shallow embeddings of `src/components/CommunityChat.tsx`
(message list seeding, optimistic append, broadcast-echo dedup, presence count,
send path) over `src/lib/supabase.ts`'s `ChatMessage` row type.  The radio
definitions embed the zustand store `src/stores/radioStore.ts` together with an
explicit model of the timer environment (`setTimeout` / `clearTimeout`) so that
"a retry is pending" is a first-class notion.

Opaque server-assigned ids and timestamps are modelled as `Nat`.
-/

namespace QueenCode

/-- Row type of the `messages` table (`src/lib/supabase.ts`, `ChatMessage`).
The server-assigned opaque id and the `created_at` timestamp are modelled as
naturals. -/
structure ChatMessage where
  id : Nat
  username : String
  message : String
  created_at : Nat
deriving DecidableEq, Repr

namespace Chat

/-- Optimistic local append performed by `handleSend` after a successful durable
insert (`CommunityChat.tsx` lines 145-148): append the inserted row unless an
entry with the same id is already present. -/
def optimisticAppend (data : ChatMessage) (prev : List ChatMessage) : List ChatMessage :=
  if (prev.find? (fun m => m.id == data.id)).isSome then prev else prev ++ [data]

/-- Broadcast handler registered in `subscribeToMessages`
(`CommunityChat.tsx` lines 80-94).  Returns the new message list together with
whether the notification sound was triggered: the message is appended only if no
existing entry shares its id, and the sound fires only on that fresh append and
only when the author differs from the local identity. -/
def onBroadcastMessage (username : String) (message : ChatMessage)
    (prev : List ChatMessage) : List ChatMessage × Bool :=
  if (prev.find? (fun m => m.id == message.id)).isSome then (prev, false)
  else (prev ++ [message], message.username != username)

/-- Number of entries of `l` whose id equals `m.id`. -/
def countId (m : ChatMessage) (l : List ChatMessage) : Nat :=
  l.countP (fun x => x.id == m.id)

/-- Apply an arbitrary interleaving of the two insertion paths for one logical
message `m`: `true` entries of `seq` are broadcast-echo deliveries, `false`
entries are the optimistic local append. -/
def deliverSteps (u : String) (m : ChatMessage) (l : List ChatMessage)
    (seq : List Bool) : List ChatMessage :=
  seq.foldl
    (fun acc viaBroadcast =>
      if viaBroadcast then (onBroadcastMessage u m acc).1 else optimisticAppend m acc) l

/-- Whitespace trimming as performed by `inputValue.trim()` in `handleSend`,
modelled structurally on the underlying character list: drop leading and
trailing whitespace. -/
def trim (s : String) : String :=
  ⟨((s.data.dropWhile Char.isWhitespace).reverse.dropWhile Char.isWhitespace).reverse⟩

/-- Result of one run of `handleSend` (`CommunityChat.tsx` lines 124-169):
the textarea draft, the loading flag, the message list, whether the durable
insert was attempted, and the list of records broadcast to the channel. -/
structure SendResult where
  inputValue : String
  isLoading : Bool
  messages : List ChatMessage
  insertAttempted : Bool
  broadcasts : List ChatMessage
deriving DecidableEq, Repr

/-- `handleSend` (`CommunityChat.tsx` lines 124-169).  `insertResult` is the
durable store's reply to the insert (`none` models the error / thrown path);
`channelReady` models `channelRef.current` being non-null.  Blank or
whitespace-only input (and a send while one is in flight) returns before any
store call.  On insert failure the catch block restores the trimmed draft to
the input and no broadcast happens; on success the row is appended if absent
and then broadcast. -/
def handleSend (inputValue : String) (isLoading : Bool) (username : String)
    (insertResult : Option ChatMessage) (channelReady : Bool)
    (messages : List ChatMessage) : SendResult :=
  if trim inputValue = "" ∨ isLoading then
    { inputValue := inputValue, isLoading := isLoading, messages := messages,
      insertAttempted := false, broadcasts := [] }
  else
    let messageText := trim inputValue
    match insertResult with
    | none =>
        { inputValue := messageText, isLoading := false, messages := messages,
          insertAttempted := true, broadcasts := [] }
    | some data =>
        { inputValue := "", isLoading := false,
          messages := optimisticAppend data messages,
          insertAttempted := true,
          broadcasts := if channelReady then [data] else [] }

/-- Server-side evaluation of the history query issued by `loadRecentMessages`
(`CommunityChat.tsx` lines 56-61): `order(created_at, ascending).limit(50)`.
`store` lists the durable rows of the `messages` table in `created_at`-ascending
order (insertion order); the query returns its first 50 rows. -/
def storeQuery (store : List ChatMessage) : List ChatMessage :=
  store.take 50

/-- Modelled from the spec: "fetches the most recent 50 messages from the
durable store ordered by creation time ascending".  On a `created_at`-ascending
`store` these are its last 50 rows, still in ascending order.  Stated for
comparison with `storeQuery`, which is what the code requests. -/
def mostRecentAsc (store : List ChatMessage) : List ChatMessage :=
  store.drop (store.length - 50)

/-- State update performed by `loadRecentMessages` (`CommunityChat.tsx` lines
56-69) once the store replies: on error (`none`) it only logs and returns, so
the message list keeps its previous value (the initial `[]`); on success it
replaces the list with the returned rows, with no client-side re-sort. -/
def loadRecentMessages (resp : Option (List ChatMessage))
    (messages : List ChatMessage) : List ChatMessage :=
  match resp with
  | none => messages
  | some data => data

/-- A durable store holding 51 rows with creation times 0,…,50 (ascending). -/
def demoStore : List ChatMessage :=
  (List.range 51).map (fun i => { id := i, username := "u", message := "m", created_at := i })

/-- Per-member presence metadata tracked by this client
(`CommunityChat.tsx` lines 104-109). -/
structure PresenceMeta where
  user : String
  online_at : Nat
deriving DecidableEq, Repr

/-- The channel's presence state as exposed by `channel.presenceState()`:
a mapping from presence key (the username, see the channel config at
`CommunityChat.tsx` lines 72-79) to the metadata records tracked under it. -/
abbrev PresenceState := List (String × List PresenceMeta)

/-- Modelled from the spec: the realtime channel's presence membership is owned
by the external pub/sub collaborator (spec section 6, `session.track`); tracking
an identity adds its key to the membership view (or refreshes its metadata if
already attached). -/
def track (key : String) (meta : PresenceMeta) (st : PresenceState) : PresenceState :=
  if st.any (fun e => e.1 == key) then
    st.map (fun e => if e.1 == key then (e.1, [meta]) else e)
  else st ++ [(key, [meta])]

/-- Modelled from the spec: leaving the channel (the `subscribe` disposer /
transport timeout) removes the identity's key from the membership view. -/
def leave (key : String) (st : PresenceState) : PresenceState :=
  st.filter (fun e => e.1 != key)

/-- Presence-sync handler (`CommunityChat.tsx` lines 96-101): the online count
is recomputed wholesale as `Object.keys(state).length`, the number of identity
keys of the latest snapshot. -/
def onPresenceSyncCount (st : PresenceState) : Nat :=
  (st.map Prod.fst).length

/-- A concrete message, used to instantiate the general theorems. -/
def demoMsg : ChatMessage :=
  { id := 1, username := "bob", message := "hello", created_at := 10 }

/-- A concrete presence metadata record. -/
def demoMeta : PresenceMeta := { user := "bob", online_at := 0 }

/-- Membership view reached after the identities `ks` track in order, starting
from an empty channel. -/
def joinAll (meta : PresenceMeta) (ks : List String) : PresenceState :=
  ks.foldl (fun st key => track key meta st) []

end Chat

namespace RadioStore

/-- The `RadioStation` union type of `src/stores/radioStore.ts`. -/
inductive Station where
  | code
  | rain
deriving DecidableEq, Repr

/-- The `RADIO_SOURCES` endpoint table of `radioStore.ts`. -/
def RADIO_SOURCES : Station → String
  | .code => "https://coderadio-admin-v2.freecodecamp.org/listen/coderadio/radio.mp3"
  | .rain => "https://rainyday-mynoise.radioca.st/stream"

def MAX_RECONNECT_ATTEMPTS : Nat := 5

def BASE_RECONNECT_DELAY : Nat := 2000

/-- Observable state of the single `HTMLAudioElement` owned by the store:
its source URL, playback position (ms, modelled as `Nat`), paused flag and
effective volume. -/
structure AudioElement where
  src : String
  currentTime : Nat
  paused : Bool
  volume : ℚ
deriving DecidableEq, Repr

/-- The zustand `RadioState` of `radioStore.ts` combined with an explicit model
of the timer environment: `pendingTimers` lists the `(id, delay-ms)` pairs of
`setTimeout` calls that are scheduled and neither fired nor cancelled, and
`nextTimerId` supplies fresh timer handles.  `reconnectTimer` stores the handle
the store last remembered, exactly as the `reconnectTimer` field does in the
code (it can go stale after a timer fires, since the callback never nulls it). -/
structure Sys where
  isPlaying : Bool
  isLoading : Bool
  volume : ℚ
  isMuted : Bool
  activeStation : Station
  audioElement : Option AudioElement
  reconnectAttempts : Nat
  reconnectTimer : Option Nat
  wasPlayingBeforeError : Bool
  pendingTimers : List (Nat × Nat)
  nextTimerId : Nat
deriving DecidableEq, Repr

/-- The store's initial values (`radioStore.ts` lines 38-46), with an empty
timer environment. -/
def initialSys : Sys :=
  { isPlaying := false, isLoading := false, volume := 7/10, isMuted := false,
    activeStation := .code, audioElement := none, reconnectAttempts := 0,
    reconnectTimer := none, wasPlayingBeforeError := false,
    pendingTimers := [], nextTimerId := 0 }

def setIsPlaying (b : Bool) (s : Sys) : Sys := { s with isPlaying := b }

def setIsLoading (b : Bool) (s : Sys) : Sys := { s with isLoading := b }

/-- `setVolume` (`radioStore.ts` lines 50-56): record the volume and push the
effective volume (`muted ? 0 : volume`) to the element when it exists. -/
def setVolume (v : ℚ) (s : Sys) : Sys :=
  let s1 := { s with volume := v }
  match s1.audioElement with
  | some a => { s1 with audioElement := some { a with volume := if s1.isMuted then 0 else v } }
  | none => s1

/-- `setIsMuted` (`radioStore.ts` lines 57-63). -/
def setIsMuted (muted : Bool) (s : Sys) : Sys :=
  let s1 := { s with isMuted := muted }
  match s1.audioElement with
  | some a => { s1 with audioElement := some { a with volume := if muted then 0 else s1.volume } }
  | none => s1

def setActiveStation (station : Station) (s : Sys) : Sys := { s with activeStation := station }

/-- `clearReconnect` (`radioStore.ts` lines 66-72): when a timer handle is
remembered, `clearTimeout` it (removing it from the pending set) and reset the
handle and the attempt counter. -/
def clearReconnect (s : Sys) : Sys :=
  match s.reconnectTimer with
  | none => s
  | some t =>
      { s with
          pendingTimers := s.pendingTimers.filter (fun p => p.1 ≠ t),
          reconnectTimer := none,
          reconnectAttempts := 0 }

/-- `initAudio` (`radioStore.ts` lines 74-133): create the element on first use,
pointing at the active station's source with the effective volume; a no-op once
the element exists.  (Listener registration is modelled by the event steps of
`Step` below being available only when the element exists.) -/
def initAudio (s : Sys) : Sys :=
  match s.audioElement with
  | some _ => s
  | none =>
      { s with
          audioElement := some
            { src := RADIO_SOURCES s.activeStation, currentTime := 0, paused := true,
              volume := if s.isMuted then 0 else s.volume } }

/-- Synchronous part of `play()` (`radioStore.ts` lines 135-145): `initAudio`,
set `isLoading`, and start the element (its `paused` flag drops). -/
def playStart (s : Sys) : Sys :=
  let s1 := initAudio s
  match s1.audioElement with
  | some a => { s1 with isLoading := true, audioElement := some { a with paused := false } }
  | none => { s1 with isLoading := true }

/-- The `catch` branch of `play()` (`radioStore.ts` lines 140-144): on a
rejected `audio.play()` the loading flag is dropped and the error rethrown. -/
def playFailed (s : Sys) : Sys := { s with isLoading := false }

/-- The `loadstart` listener (`radioStore.ts` line 82). -/
def handleLoadStart (s : Sys) : Sys := { s with isLoading := true }

/-- The `canplay` listener (`radioStore.ts` lines 83-86): successful resume
drops loading, resets the attempt counter and the was-playing flag, and clears
any pending reconnect. -/
def handleCanPlay (s : Sys) : Sys :=
  clearReconnect { s with isLoading := false, reconnectAttempts := 0, wasPlayingBeforeError := false }

/-- The `play` listener (`radioStore.ts` line 87). -/
def handlePlay (s : Sys) : Sys := { s with isPlaying := true }

/-- The `pause` listener (`radioStore.ts` line 88). -/
def handlePause (s : Sys) : Sys := { s with isPlaying := false }

/-- The `ended` listener (`radioStore.ts` line 89). -/
def handleEnded (s : Sys) : Sys := { s with isPlaying := false }

/-- The `error` listener (`radioStore.ts` lines 90-117).  While playback was
intended (`isPlaying || isLoading`) and fewer than `MAX_RECONNECT_ATTEMPTS`
retries have fired, schedule a retry after `BASE_RECONNECT_DELAY * 2 ^
reconnectAttempts` ms and remember its handle; once the attempts are exhausted,
reset the counter and the was-playing flag and schedule nothing. -/
def handleError (s : Sys) : Sys :=
  let wasPlaying := s.isPlaying || s.isLoading
  let s1 := { s with isPlaying := false, isLoading := false, wasPlayingBeforeError := wasPlaying }
  if wasPlaying ∧ s.reconnectAttempts < MAX_RECONNECT_ATTEMPTS then
    { s1 with
        pendingTimers :=
          s1.pendingTimers ++ [(s1.nextTimerId, BASE_RECONNECT_DELAY * 2 ^ s.reconnectAttempts)],
        reconnectTimer := some s1.nextTimerId,
        nextTimerId := s1.nextTimerId + 1 }
  else if MAX_RECONNECT_ATTEMPTS ≤ s.reconnectAttempts then
    { s1 with reconnectAttempts := 0, wasPlayingBeforeError := false }
  else s1

/-- Expiry of the timeout with handle `t` (`radioStore.ts` lines 100-110): a
no-op unless `t` is still pending; otherwise the timer leaves the pending set
and its callback runs — if the error interrupted intended playback, bump the
attempt counter and retry `play()`. -/
def fireTimer (t : Nat) (s : Sys) : Sys :=
  if s.pendingTimers.any (fun p => p.1 == t) then
    let s1 := { s with pendingTimers := s.pendingTimers.filter (fun p => p.1 ≠ t) }
    if s1.wasPlayingBeforeError then
      playStart { s1 with reconnectAttempts := s1.reconnectAttempts + 1 }
    else s1
  else s

/-- `pause` (`radioStore.ts` lines 147-154): clear any pending reconnect first,
pause the element when it exists, and drop the was-playing flag.  (`isPlaying`
itself is dropped by the element's `pause` event, `handlePause`.) -/
def pause (s : Sys) : Sys :=
  let s1 := clearReconnect s
  let s2 :=
    match s1.audioElement with
    | some a => { s1 with audioElement := some { a with paused := true } }
    | none => s1
  { s2 with wasPlayingBeforeError := false }

/-- `stop` (`radioStore.ts` lines 156-168): clear any pending reconnect first;
when the element exists, pause it, reset its position, drop the playback flags
and reload the element against the active station's source. -/
def stop (s : Sys) : Sys :=
  let s1 := clearReconnect s
  match s1.audioElement with
  | some a =>
      { s1 with
          isPlaying := false, isLoading := false, wasPlayingBeforeError := false,
          audioElement := some
            { a with paused := true, currentTime := 0, src := RADIO_SOURCES s1.activeStation } }
  | none => s1

/-- `switchStation` (`radioStore.ts` lines 170-179): clear any pending reconnect
first; when the element exists, pause it, reset its position, drop the playback
flags, switch the active station and point the element at the new source.
Playback is never restarted here.  When the element does not exist, nothing
beyond `clearReconnect` happens — the active station is not switched. -/
def switchStation (station : Station) (s : Sys) : Sys :=
  let s1 := clearReconnect s
  match s1.audioElement with
  | some a =>
      { s1 with
          isPlaying := false, isLoading := false, activeStation := station,
          wasPlayingBeforeError := false,
          audioElement := some
            { a with paused := true, currentTime := 0, src := RADIO_SOURCES station } }
  | none => s1

/-- One interaction step of the store: a public operation, or an event of the
audio element (available only once the element exists, when the listeners are
attached), or the expiry of a pending timeout. -/
inductive Step : Sys → Sys → Prop where
  | setIsPlaying (b : Bool) (s : Sys) : Step s (setIsPlaying b s)
  | setIsLoading (b : Bool) (s : Sys) : Step s (setIsLoading b s)
  | setVolume (v : ℚ) (s : Sys) : Step s (setVolume v s)
  | setIsMuted (b : Bool) (s : Sys) : Step s (setIsMuted b s)
  | setActiveStation (station : Station) (s : Sys) : Step s (setActiveStation station s)
  | initAudio (s : Sys) : Step s (initAudio s)
  | playStart (s : Sys) : Step s (playStart s)
  | playFailed (s : Sys) (h : s.audioElement.isSome) : Step s (playFailed s)
  | pause (s : Sys) : Step s (pause s)
  | stop (s : Sys) : Step s (stop s)
  | switchStation (station : Station) (s : Sys) : Step s (switchStation station s)
  | handleLoadStart (s : Sys) (h : s.audioElement.isSome) : Step s (handleLoadStart s)
  | handleCanPlay (s : Sys) (h : s.audioElement.isSome) : Step s (handleCanPlay s)
  | handlePlay (s : Sys) (h : s.audioElement.isSome) : Step s (handlePlay s)
  | handlePause (s : Sys) (h : s.audioElement.isSome) : Step s (handlePause s)
  | handleEnded (s : Sys) (h : s.audioElement.isSome) : Step s (handleEnded s)
  | handleError (s : Sys) (h : s.audioElement.isSome) : Step s (handleError s)
  | fireTimer (t : Nat) (s : Sys)
      (h : s.pendingTimers.any (fun p => p.1 == t)) : Step s (fireTimer t s)

/-- States reachable from the store's initial state by interaction steps. -/
inductive Reachable : Sys → Prop where
  | init : Reachable initialSys
  | step {s s2 : Sys} : Reachable s → Step s s2 → Reachable s2

/-- Concrete state used in the backoff scenario: `play()` was called from the
initial state, the stream became ready (`canplay`) and started (`play` event). -/
def playingSys : Sys := handlePlay (handleCanPlay (playStart initialSys))

/-- One round of the consecutive-failure scenario: a transport error fires, and
the retry it schedules (if any) later expires. -/
def errorCycle (s : Sys) : Sys :=
  let s1 := handleError s
  match s1.reconnectTimer with
  | some t => fireTimer t s1
  | none => s1

/-- The state after `n` error-plus-retry rounds starting from `playingSys`. -/
def errorRun : Nat → Sys
  | 0 => playingSys
  | n + 1 => errorCycle (errorRun n)

/-- The audio element as it looks in `playingSys`. -/
def demoAudioElt : AudioElement :=
  { src := RADIO_SOURCES Station.code, currentTime := 0, paused := false, volume := 7/10 }

end RadioStore

section ChatTheorems

open Chat

theorem list_find?_isSome_eq_any {α : Type} (p : α → Bool) (l : List α) :
    (l.find? p).isSome = l.any p := by
  induction l with
  | nil => rfl
  | cons x xs ih => by_cases h : p x <;> simp [List.find?, h, ih]

theorem onBroadcastMessage_fst (u : String) (m : ChatMessage) (l : List ChatMessage) :
    (onBroadcastMessage u m l).1 = optimisticAppend m l := by
  by_cases h : (l.find? (fun x => x.id == m.id)).isSome <;>
    simp [onBroadcastMessage, optimisticAppend, h]

theorem optimisticAppend_of_absent (m : ChatMessage) (l : List ChatMessage)
    (h : countId m l = 0) : optimisticAppend m l = l ++ [m] := by
  have hall : ∀ x ∈ l, ¬(x.id == m.id) = true := List.countP_eq_zero.mp h
  have hfind : (l.find? (fun x => x.id == m.id)).isSome = false := by
    rw [list_find?_isSome_eq_any]
    exact List.any_eq_false.mpr hall
  simp [optimisticAppend, hfind]

theorem optimisticAppend_of_present (m : ChatMessage) (l : List ChatMessage)
    (h : countId m l ≠ 0) : optimisticAppend m l = l := by
  have hpos : 0 < l.countP (fun x => x.id == m.id) := Nat.pos_of_ne_zero h
  have hfind : (l.find? (fun x => x.id == m.id)).isSome = true := by
    rw [list_find?_isSome_eq_any]
    exact List.any_eq_true.mpr (List.countP_pos.mp hpos)
  simp [optimisticAppend, hfind]

theorem countId_append_self (m : ChatMessage) (l : List ChatMessage) :
    countId m (l ++ [m]) = countId m l + 1 := by
  unfold countId
  rw [List.countP_append]
  simp [List.countP_cons]

theorem deliverSteps_cons (u : String) (m : ChatMessage) (l : List ChatMessage)
    (b : Bool) (seq : List Bool) :
    deliverSteps u m l (b :: seq) =
      deliverSteps u m (if b then (onBroadcastMessage u m l).1 else optimisticAppend m l) seq :=
  rfl

theorem deliverSteps_of_countId_one (u : String) (m : ChatMessage) :
    ∀ (seq : List Bool) (l : List ChatMessage),
      countId m l = 1 → countId m (deliverSteps u m l seq) = 1 := by
  intro seq
  induction seq with
  | nil => intro l h; exact h
  | cons b bs ih =>
    intro l h
    rw [deliverSteps_cons]
    have hstep : (if b then (onBroadcastMessage u m l).1 else optimisticAppend m l) = l := by
      have hne : countId m l ≠ 0 := by omega
      cases b <;> simp [onBroadcastMessage_fst, optimisticAppend_of_present m l hne]
    rw [hstep]
    exact ih l h

theorem map_id_nodup_append (m : ChatMessage) (l : List ChatMessage)
    (hn : (l.map (fun x => x.id)).Nodup) (habs : ∀ x ∈ l, x.id ≠ m.id) :
    ((l ++ [m]).map (fun x => x.id)).Nodup := by
  rw [List.map_append, List.nodup_append]
  refine ⟨hn, List.nodup_singleton _, ?_⟩
  intro a ha
  rcases List.mem_map.mp ha with ⟨x, hx, rfl⟩
  simp [habs x hx]

theorem optimisticAppend_nodup (m : ChatMessage) (l : List ChatMessage)
    (hn : (l.map (fun x => x.id)).Nodup) :
    ((optimisticAppend m l).map (fun x => x.id)).Nodup := by
  by_cases h : countId m l = 0
  · rw [optimisticAppend_of_absent m l h]
    have habs : ∀ x ∈ l, x.id ≠ m.id := by
      intro x hx
      have := List.countP_eq_zero.mp h x hx
      simpa using this
    exact map_id_nodup_append m l hn habs
  · rw [optimisticAppend_of_present m l h]
    exact hn

/-- C1.  For every message `m`, any nonempty interleaving of the optimistic
local append (after a successful insert) and the broadcast-echo handler leaves
the MessageList with exactly one entry whose id is `m.id` (starting from a list
without that id); both insertion paths append only when no existing entry
shares the id (otherwise they leave the list unchanged); and both paths
preserve set-uniqueness of ids, so no two entries of the list ever share an
id. -/
theorem c1_messageList_dedup :
    (∀ (u : String) (m : ChatMessage) (l : List ChatMessage) (seq : List Bool),
      seq ≠ [] → countId m l = 0 → countId m (deliverSteps u m l seq) = 1)
    ∧ (∀ (u : String) (m : ChatMessage) (l : List ChatMessage),
      countId m l ≠ 0 → optimisticAppend m l = l ∧ (onBroadcastMessage u m l).1 = l)
    ∧ (∀ (u : String) (m : ChatMessage) (l : List ChatMessage),
      (l.map (fun x => x.id)).Nodup →
        ((optimisticAppend m l).map (fun x => x.id)).Nodup ∧
        (((onBroadcastMessage u m l).1).map (fun x => x.id)).Nodup) := by
  refine ⟨?_, ?_, ?_⟩
  · intro u m l seq hne h0
    cases seq with
    | nil => exact absurd rfl hne
    | cons b bs =>
      rw [deliverSteps_cons]
      have hstep : (if b then (onBroadcastMessage u m l).1 else optimisticAppend m l) = l ++ [m] := by
        cases b <;> simp [onBroadcastMessage_fst, optimisticAppend_of_absent m l h0]
      rw [hstep]
      have h1 : countId m (l ++ [m]) = 1 := by rw [countId_append_self, h0]
      exact deliverSteps_of_countId_one u m bs (l ++ [m]) h1
  · intro u m l h
    exact ⟨optimisticAppend_of_present m l h,
      (onBroadcastMessage_fst u m l).trans (optimisticAppend_of_present m l h)⟩
  · intro u m l hn
    exact ⟨optimisticAppend_nodup m l hn,
      by rw [onBroadcastMessage_fst]; exact optimisticAppend_nodup m l hn⟩

/-- C1 witness: the dedup law evaluated on the concrete message `demoMsg`
arriving once optimistically and twice as a broadcast echo. -/
theorem c1_messageList_dedup_witness :
    countId demoMsg (deliverSteps "bob" demoMsg [] [false, true, true]) = 1 :=
  c1_messageList_dedup.1 "bob" demoMsg [] [false, true, true]
    (by decide) (by decide)

/-- C6.  Empty or whitespace-only input is rejected before any store call:
`handleSend` returns with the insert not attempted, nothing broadcast, and the
draft, loading flag and MessageList unchanged. -/
theorem c6_blank_input_rejected (inputValue : String) (isLoading : Bool)
    (username : String) (insertResult : Option ChatMessage) (channelReady : Bool)
    (messages : List ChatMessage) (h : trim inputValue = "") :
    handleSend inputValue isLoading username insertResult channelReady messages =
      { inputValue := inputValue, isLoading := isLoading, messages := messages,
        insertAttempted := false, broadcasts := [] } := by
  simp [handleSend, h]

/-- C6 witness: a whitespace-only draft with a store reply standing by is
rejected without touching anything. -/
theorem c6_blank_input_rejected_witness :
    handleSend "   " false "bob" (some demoMsg) true [demoMsg] =
      { inputValue := "   ", isLoading := false, messages := [demoMsg],
        insertAttempted := false, broadcasts := [] } :=
  c6_blank_input_rejected "   " false "bob" (some demoMsg) true [demoMsg] (by decide)

/-- C5.  If the durable insert fails (`insertResult = none`), `handleSend`
restores the draft text (the trimmed body it tried to send) to the input,
attempts no broadcast, and leaves the MessageList unchanged; and on any run a
record is broadcast only when it is exactly the row the successful insert
returned, so the broadcast never precedes a successful insert. -/
theorem c5_insert_failure_atomic :
    (∀ (inputValue username : String) (channelReady : Bool) (messages : List ChatMessage),
      trim inputValue ≠ "" →
        handleSend inputValue false username none channelReady messages =
          { inputValue := trim inputValue, isLoading := false, messages := messages,
            insertAttempted := true, broadcasts := [] })
    ∧ (∀ (inputValue : String) (isLoading : Bool) (username : String)
        (insertResult : Option ChatMessage) (channelReady : Bool)
        (messages : List ChatMessage) (d : ChatMessage),
      d ∈ (handleSend inputValue isLoading username insertResult channelReady messages).broadcasts →
        insertResult = some d) := by
  constructor
  · intro inputValue username channelReady messages h
    simp [handleSend, h]
  · intro inputValue isLoading username insertResult channelReady messages d hd
    unfold handleSend at hd
    by_cases hg : trim inputValue = "" ∨ isLoading
    · simp [hg] at hd
    · simp [hg] at hd
      cases insertResult with
      | none => simp at hd
      | some data =>
        simp at hd
        by_cases hc : channelReady
        · simp [hc] at hd
          rw [hd]
        · simp [hc] at hd

/-- C5 witness: a failed insert of the draft " hello " restores the trimmed
draft and changes nothing else; and on a successful send the single broadcast
record is the inserted row. -/
theorem c5_insert_failure_atomic_witness :
    (handleSend " hello " false "bob" none true [demoMsg] =
      { inputValue := "hello", isLoading := false, messages := [demoMsg],
        insertAttempted := true, broadcasts := [] })
    ∧ (some demoMsg : Option ChatMessage) = some demoMsg := by
  constructor
  · exact c5_insert_failure_atomic.1 " hello " "bob" true [demoMsg] (by decide)
  · exact c5_insert_failure_atomic.2 "hi" false "bob" (some demoMsg) true [] demoMsg (by decide)

/-- C8.  On a delivered broadcast message the notification sound fires exactly
when the author differs from the local identity and no entry with the message's
id is present; it never fires for a self-authored message, and never fires
again on a duplicate delivery of the same message. -/
theorem c8_notification_sound :
    (∀ (u : String) (m : ChatMessage) (prev : List ChatMessage),
      (onBroadcastMessage u m prev).2 = true ↔
        ((∀ x ∈ prev, x.id ≠ m.id) ∧ m.username ≠ u))
    ∧ (∀ (m : ChatMessage) (prev : List ChatMessage),
      (onBroadcastMessage m.username m prev).2 = false)
    ∧ (∀ (u : String) (m : ChatMessage) (prev : List ChatMessage),
      (onBroadcastMessage u m ((onBroadcastMessage u m prev).1)).2 = false) := by
  refine ⟨?_, ?_, ?_⟩
  · intro u m prev
    by_cases h : (prev.find? (fun x => x.id == m.id)).isSome
    · have h2 : (onBroadcastMessage u m prev).2 = false := by simp [onBroadcastMessage, h]
      rw [h2]
      constructor
      · intro hfalse; exact absurd hfalse (by simp)
      · rintro ⟨habs, -⟩
        rw [list_find?_isSome_eq_any] at h
        rcases List.any_eq_true.mp h with ⟨x, hx, hid⟩
        exact absurd (by simpa using hid) (habs x hx)
    · have hfind : (prev.find? (fun x => x.id == m.id)).isSome = false := by
        simpa using h
      have habs : ∀ x ∈ prev, x.id ≠ m.id := by
        intro x hx
        have hany : prev.any (fun x => x.id == m.id) = false := by
          rw [← list_find?_isSome_eq_any]; exact hfind
        have := List.any_eq_false.mp hany x hx
        simpa using this
      have h2 : (onBroadcastMessage u m prev).2 = (m.username != u) := by
        simp [onBroadcastMessage, hfind]
      rw [h2, bne_iff_ne]
      exact ⟨fun hne => ⟨habs, hne⟩, fun hp => hp.2⟩
  · intro m prev
    by_cases h : (prev.find? (fun x => x.id == m.id)).isSome <;>
      simp [onBroadcastMessage, h]
  · intro u m prev
    by_cases h : (prev.find? (fun x => x.id == m.id)).isSome
    · simp [onBroadcastMessage, h]
    · have hfst : (onBroadcastMessage u m prev).1 = prev ++ [m] := by
        simp [onBroadcastMessage, h]
      rw [hfst]
      have hmem : ((prev ++ [m]).find? (fun x => x.id == m.id)).isSome = true := by
        rw [list_find?_isSome_eq_any]
        exact List.any_eq_true.mpr ⟨m, by simp, by simp⟩
      simp [onBroadcastMessage, hmem]

/-- C8 witness: a fresh broadcast from another author rings once, and its
duplicate delivery is silent. -/
theorem c8_notification_sound_witness :
    ((onBroadcastMessage "alice" demoMsg []).2 = true ↔
      ((∀ x ∈ ([] : List ChatMessage), x.id ≠ demoMsg.id) ∧ demoMsg.username ≠ "alice"))
    ∧ (onBroadcastMessage "alice" demoMsg ((onBroadcastMessage "alice" demoMsg []).1)).2 = false :=
  ⟨c8_notification_sound.1 "alice" demoMsg [],
    c8_notification_sound.2.2 "alice" demoMsg []⟩

/-- C2.  Evaluation of the history load at a store of 51 rows with creation
times 0,…,50: the query `order(created_at, ascending).limit(50)` issued by
`loadRecentMessages` returns the oldest 50 rows, so the newest row
(`created_at = 50`) is absent from the result even though it is in the store,
and the result is not the most recent 50 rows in ascending order that the
function's name and the spec promise.  The error path is as specified: on a
store error the message list keeps its previous (initially empty) value. -/
theorem c2_history_query_drops_newest :
    demoStore.length = 51
    ∧ ((storeQuery demoStore).all (fun m => m.created_at != 50)) = true
    ∧ (demoStore.any (fun m => m.created_at == 50)) = true
    ∧ decide (storeQuery demoStore = mostRecentAsc demoStore) = false
    ∧ loadRecentMessages none ([] : List ChatMessage) = [] := by
  refine ⟨by decide, by decide, by decide, by decide, rfl⟩

theorem pair_filter_fst {α β : Type} (p : α → Bool) :
    ∀ l : List (α × β), (l.filter (fun e => p e.1)).map Prod.fst = (l.map Prod.fst).filter p := by
  intro l
  induction l with
  | nil => rfl
  | cons e es ih =>
    by_cases h : p e.1 = true <;> simp [List.filter_cons, h, ih]

theorem filter_ne_length_of_nodup (k : String) :
    ∀ ks : List String, ks.Nodup → k ∈ ks →
      (ks.filter (fun x => x != k)).length = ks.length - 1 := by
  intro ks
  induction ks with
  | nil => intro _ h; cases h
  | cons a as ih =>
    intro hnd hmem
    rcases List.nodup_cons.mp hnd with ⟨hna, hnd2⟩
    by_cases hak : a = k
    · subst hak
      have hke : ∀ x ∈ as, (x != a) = true := by
        intro x hx
        have : x ≠ a := fun hxa => hna (hxa ▸ hx)
        simpa using this
      simp [List.filter_cons, List.filter_eq_self.mpr hke]
    · have hk2 : k ∈ as := by
        rcases List.mem_cons.mp hmem with h | h
        · exact absurd h.symm hak
        · exact h
      have hlen : 0 < as.length := List.length_pos_of_mem hk2
      have hkeep : (a != k) = true := by simpa using hak
      have := ih hnd2 hk2
      simp only [List.filter_cons, hkeep, if_pos, List.length_cons]
      omega

theorem track_absent (key : String) (meta : PresenceMeta) (st : PresenceState)
    (h : key ∉ st.map Prod.fst) : track key meta st = st ++ [(key, [meta])] := by
  have hany : (st.any (fun e => e.1 == key)) = false := by
    rw [List.any_eq_false]
    intro e he hbeq
    exact h (List.mem_map.mpr ⟨e, he, by simpa using hbeq⟩)
  simp [track, hany]

theorem joinAll_keys (meta : PresenceMeta) :
    ∀ (ks : List String) (st : PresenceState),
      ((st.map Prod.fst) ++ ks).Nodup →
        (ks.foldl (fun st key => track key meta st) st).map Prod.fst = st.map Prod.fst ++ ks := by
  intro ks
  induction ks with
  | nil => intro st _; simp
  | cons k rest ih =>
    intro st hnd
    have hk : k ∉ st.map Prod.fst := by
      rcases List.nodup_append.mp hnd with ⟨-, -, hdisj⟩
      intro hmem
      exact hdisj hmem (List.mem_cons_self k rest)
    have htrack : track k meta st = st ++ [(k, [meta])] := track_absent k meta st hk
    have hnd2 : (((st ++ [(k, [meta])]).map Prod.fst) ++ rest).Nodup := by
      rw [List.map_append]
      simpa [List.append_assoc] using (List.append_cons (st.map Prod.fst) k rest ▸ hnd)
    calc ((k :: rest).foldl (fun st key => track key meta st) st).map Prod.fst
        = (rest.foldl (fun st key => track key meta st) (st ++ [(k, [meta])])).map Prod.fst := by
          rw [List.foldl_cons, htrack]
      _ = (st ++ [(k, [meta])]).map Prod.fst ++ rest := ih (st ++ [(k, [meta])]) hnd2
      _ = st.map Prod.fst ++ (k :: rest) := by simp

/-- C7.  The online count is the number of identity keys of the latest presence
snapshot, recomputed wholesale on every sync event; and after `N` distinct
identities track on an empty channel and one of them leaves, the count derived
from the resulting snapshot is `N - 1`. -/
theorem c7_presence_count :
    (∀ st : PresenceState, onPresenceSyncCount st = (st.map Prod.fst).length)
    ∧ (∀ (meta : PresenceMeta) (ks : List String) (k : String),
        ks.Nodup → k ∈ ks →
          onPresenceSyncCount (leave k (joinAll meta ks)) = ks.length - 1) := by
  constructor
  · intro st; rfl
  · intro meta ks k hnd hmem
    have hkeys : (joinAll meta ks).map Prod.fst = ks := by
      have := joinAll_keys meta ks [] (by simpa using hnd)
      simpa [joinAll] using this
    unfold onPresenceSyncCount leave
    rw [pair_filter_fst (fun x => x != k) (joinAll meta ks), hkeys]
    exact filter_ne_length_of_nodup k ks hnd hmem

/-- C7 witness: three distinct identities track and one leaves; the count
recomputed from the snapshot is 2. -/
theorem c7_presence_count_witness :
    onPresenceSyncCount (leave "b" (joinAll demoMeta ["a", "b", "c"])) = 2 :=
  c7_presence_count.2 demoMeta ["a", "b", "c"] "b" (by decide) (by decide)

end ChatTheorems

section RadioTheorems

open RadioStore

theorem playStart_reconnectAttempts (s : Sys) :
    (playStart s).reconnectAttempts = s.reconnectAttempts := by
  unfold playStart initAudio
  cases h : s.audioElement <;> simp [h]

theorem playStart_isLoading (s : Sys) : (playStart s).isLoading = true := by
  unfold playStart initAudio
  cases h : s.audioElement <;> simp [h]

theorem clearReconnect_timer_none (s : Sys) : (clearReconnect s).reconnectTimer = none := by
  unfold clearReconnect
  cases h : s.reconnectTimer <;> simp [h]

theorem clearReconnect_audioElement (s : Sys) :
    (clearReconnect s).audioElement = s.audioElement := by
  unfold clearReconnect
  cases h : s.reconnectTimer <;> simp [h]

/-- C3.  The backoff policy of the error handler: while playback was intended
and fewer than `MAX_RECONNECT_ATTEMPTS` retries have fired, the handler
schedules exactly one retry after `BASE_RECONNECT_DELAY * 2 ^ reconnectAttempts`
ms; a fired retry bumps the attempt counter exactly once (and re-enters
loading); `canplay` resets the counter to 0; and in the concrete run where the
initial error is followed by five failing retries, the scheduled delays are
2000, 4000, 8000, 16000, 32000 ms, only five timers are ever created
(`nextTimerId = 5`), and after the exhausting sixth error the state settles
idle: not playing, not loading, no pending timer, counter reset. -/
theorem c3_backoff_policy :
    (∀ s : Sys, (s.isPlaying || s.isLoading) = true →
      s.reconnectAttempts < MAX_RECONNECT_ATTEMPTS →
        (handleError s).reconnectTimer = some s.nextTimerId
        ∧ (handleError s).pendingTimers =
            s.pendingTimers
              ++ [(s.nextTimerId, BASE_RECONNECT_DELAY * 2 ^ s.reconnectAttempts)])
    ∧ (∀ (t : Nat) (s : Sys),
      (s.pendingTimers.any (fun p => p.1 == t)) = true → s.wasPlayingBeforeError = true →
        (fireTimer t s).reconnectAttempts = s.reconnectAttempts + 1
        ∧ (fireTimer t s).isLoading = true)
    ∧ (∀ s : Sys, (handleCanPlay s).reconnectAttempts = 0)
    ∧ ((handleError (errorRun 0)).pendingTimers = [(0, 2000)]
      ∧ (handleError (errorRun 1)).pendingTimers = [(1, 4000)]
      ∧ (handleError (errorRun 2)).pendingTimers = [(2, 8000)]
      ∧ (handleError (errorRun 3)).pendingTimers = [(3, 16000)]
      ∧ (handleError (errorRun 4)).pendingTimers = [(4, 32000)]
      ∧ (handleError (errorRun 5)).pendingTimers = []
      ∧ (handleError (errorRun 5)).nextTimerId = 5
      ∧ (handleError (errorRun 5)).isPlaying = false
      ∧ (handleError (errorRun 5)).isLoading = false
      ∧ (handleError (errorRun 5)).reconnectAttempts = 0
      ∧ (handleError (errorRun 5)).wasPlayingBeforeError = false) := by
  refine ⟨?_, ?_, ?_, ?_⟩
  · intro s h1 h2
    have h2n : s.reconnectAttempts < 5 := h2
    constructor <;>
      simp [handleError, MAX_RECONNECT_ATTEMPTS, BASE_RECONNECT_DELAY, h1, h2n]
  · intro t s h hw
    constructor <;>
      simp [fireTimer, h, hw, playStart_reconnectAttempts, playStart_isLoading]
  · intro s
    unfold handleCanPlay clearReconnect
    cases h : s.reconnectTimer <;> simp [h]
  · refine ⟨by decide, by decide, by decide, by decide, by decide, by decide,
      by decide, by decide, by decide, by decide, by decide⟩

/-- C3 witness: the first error of the run schedules timer 0 with the 2000 ms
delay, firing it bumps the counter to 1, and `canplay` resets the counter. -/
theorem c3_backoff_policy_witness :
    ((handleError playingSys).reconnectTimer = some playingSys.nextTimerId
      ∧ (handleError playingSys).pendingTimers =
          playingSys.pendingTimers
            ++ [(playingSys.nextTimerId,
                  BASE_RECONNECT_DELAY * 2 ^ playingSys.reconnectAttempts)])
    ∧ (fireTimer 0 (handleError playingSys)).reconnectAttempts =
        (handleError playingSys).reconnectAttempts + 1
    ∧ (handleCanPlay playingSys).reconnectAttempts = 0 :=
  ⟨c3_backoff_policy.1 playingSys (by decide) (by decide),
    (c3_backoff_policy.2.1 0 (handleError playingSys) (by decide) (by decide)).1,
    c3_backoff_policy.2.2.1 playingSys⟩

theorem pending_filter_all (t : Nat) (l : List (Nat × Nat)) :
    ((l.filter (fun p => p.1 ≠ t)).all (fun p => p.1 != t)) = true := by
  rw [List.all_eq_true]
  intro p hp
  have := (List.mem_filter.mp hp).2
  simpa using this

theorem any_eq_false_of_all_bne (t : Nat) (l : List (Nat × Nat))
    (h : (l.all (fun p => p.1 != t)) = true) : (l.any (fun p => p.1 == t)) = false := by
  rw [List.any_eq_false]
  intro p hp
  have hne := List.all_eq_true.mp h p hp
  simp only [bne_iff_ne] at hne
  simpa using hne

theorem fireTimer_of_not_pending (t : Nat) (s : Sys)
    (h : (s.pendingTimers.any (fun p => p.1 == t)) = false) : fireTimer t s = s := by
  simp [fireTimer, h]

theorem stop_timer_fields (s : Sys) :
    (stop s).reconnectTimer = (clearReconnect s).reconnectTimer
    ∧ (stop s).pendingTimers = (clearReconnect s).pendingTimers := by
  unfold stop
  cases h : (clearReconnect s).audioElement <;> simp [h]

theorem pause_timer_fields (s : Sys) :
    (pause s).reconnectTimer = (clearReconnect s).reconnectTimer
    ∧ (pause s).pendingTimers = (clearReconnect s).pendingTimers := by
  unfold pause
  cases h : (clearReconnect s).audioElement <;> simp [h]

theorem switchStation_timer_fields (station : Station) (s : Sys) :
    (switchStation station s).reconnectTimer = (clearReconnect s).reconnectTimer
    ∧ (switchStation station s).pendingTimers = (clearReconnect s).pendingTimers := by
  unfold switchStation
  cases h : (clearReconnect s).audioElement <;> simp [h]

theorem clearReconnect_pending_of_some (s : Sys) (t : Nat) (h : s.reconnectTimer = some t) :
    (clearReconnect s).pendingTimers = s.pendingTimers.filter (fun p => p.1 ≠ t) := by
  simp [clearReconnect, h]

/-- C4.  In every state with a remembered reconnect timer, each of `stop`,
`pause` and `switchStation` cancels that timer as its first state change: the
handle is cleared, the timer is no longer pending, and its later expiry is a
no-op on the resulting state — the stale retry never fires, so no Loading
transition can come from it. -/
theorem c4_user_actions_cancel_reconnect (s : Sys) (t : Nat)
    (h : s.reconnectTimer = some t) :
    ((stop s).reconnectTimer = none
      ∧ ((stop s).pendingTimers.all (fun p => p.1 != t)) = true
      ∧ fireTimer t (stop s) = stop s)
    ∧ ((pause s).reconnectTimer = none
      ∧ ((pause s).pendingTimers.all (fun p => p.1 != t)) = true
      ∧ fireTimer t (pause s) = pause s)
    ∧ (∀ station : Station,
      (switchStation station s).reconnectTimer = none
      ∧ ((switchStation station s).pendingTimers.all (fun p => p.1 != t)) = true
      ∧ fireTimer t (switchStation station s) = switchStation station s) := by
  have hpend : (clearReconnect s).pendingTimers = s.pendingTimers.filter (fun p => p.1 ≠ t) :=
    clearReconnect_pending_of_some s t h
  refine ⟨?_, ?_, ?_⟩
  · have h1 := (stop_timer_fields s).1.trans (clearReconnect_timer_none s)
    have h2 : ((stop s).pendingTimers.all (fun p => p.1 != t)) = true := by
      rw [(stop_timer_fields s).2, hpend]
      exact pending_filter_all t s.pendingTimers
    exact ⟨h1, h2, fireTimer_of_not_pending t (stop s) (any_eq_false_of_all_bne t _ h2)⟩
  · have h1 := (pause_timer_fields s).1.trans (clearReconnect_timer_none s)
    have h2 : ((pause s).pendingTimers.all (fun p => p.1 != t)) = true := by
      rw [(pause_timer_fields s).2, hpend]
      exact pending_filter_all t s.pendingTimers
    exact ⟨h1, h2, fireTimer_of_not_pending t (pause s) (any_eq_false_of_all_bne t _ h2)⟩
  · intro station
    have h1 := (switchStation_timer_fields station s).1.trans (clearReconnect_timer_none s)
    have h2 : ((switchStation station s).pendingTimers.all (fun p => p.1 != t)) = true := by
      rw [(switchStation_timer_fields station s).2, hpend]
      exact pending_filter_all t s.pendingTimers
    exact ⟨h1, h2,
      fireTimer_of_not_pending t (switchStation station s) (any_eq_false_of_all_bne t _ h2)⟩

/-- C4 witness: stopping right after the first error cancels timer 0 — its
later expiry changes nothing. -/
theorem c4_user_actions_cancel_reconnect_witness :
    (stop (handleError playingSys)).reconnectTimer = none
    ∧ fireTimer 0 (stop (handleError playingSys)) = stop (handleError playingSys) :=
  ⟨(c4_user_actions_cancel_reconnect (handleError playingSys) 0 (by decide)).1.1,
    (c4_user_actions_cancel_reconnect (handleError playingSys) 0 (by decide)).1.2.2⟩

/-- C9.  Switching to the rain source while the code source is playing ends
idle: not playing, not loading, no remembered reconnect timer, the was-playing
intent dropped, the element paused at position 0 and pointed at the rain
source, and the active source switched to rain — playback is not auto-started. -/
theorem c9_switch_source_idle (s : Sys) (a : AudioElement)
    (ha : s.audioElement = some a) (hp : s.isPlaying = true)
    (hst : s.activeStation = Station.code) :
    (switchStation Station.rain s).isPlaying = false
    ∧ (switchStation Station.rain s).isLoading = false
    ∧ (switchStation Station.rain s).activeStation = Station.rain
    ∧ (switchStation Station.rain s).reconnectTimer = none
    ∧ (switchStation Station.rain s).wasPlayingBeforeError = false
    ∧ ∃ a2 : AudioElement,
        (switchStation Station.rain s).audioElement = some a2
        ∧ a2.paused = true ∧ a2.currentTime = 0 ∧ a2.src = RADIO_SOURCES Station.rain := by
  have ha1 : (clearReconnect s).audioElement = some a := by
    rw [clearReconnect_audioElement, ha]
  refine ⟨?_, ?_, ?_, ?_, ?_, ?_⟩
  · simp [switchStation, ha1]
  · simp [switchStation, ha1]
  · simp [switchStation, ha1]
  · exact (switchStation_timer_fields Station.rain s).1.trans (clearReconnect_timer_none s)
  · simp [switchStation, ha1]
  · refine ⟨{ a with paused := true, currentTime := 0, src := RADIO_SOURCES Station.rain },
      ?_, rfl, rfl, rfl⟩
    simp [switchStation, ha1]

/-- C9 witness: switching to rain from the concrete playing-code state. -/
theorem c9_switch_source_idle_witness :
    (switchStation Station.rain playingSys).isPlaying = false
    ∧ (switchStation Station.rain playingSys).isLoading = false
    ∧ (switchStation Station.rain playingSys).activeStation = Station.rain
    ∧ (switchStation Station.rain playingSys).reconnectTimer = none
    ∧ (switchStation Station.rain playingSys).wasPlayingBeforeError = false
    ∧ ∃ a2 : AudioElement,
        (switchStation Station.rain playingSys).audioElement = some a2
        ∧ a2.paused = true ∧ a2.currentTime = 0 ∧ a2.src = RADIO_SOURCES Station.rain :=
  c9_switch_source_idle playingSys demoAudioElt rfl (by decide) (by decide)

theorem initAudio_isSome (s : Sys) : (initAudio s).audioElement.isSome = true := by
  unfold initAudio
  cases h : s.audioElement <;> simp [h]

theorem playStart_isSome (s : Sys) : (playStart s).audioElement.isSome = true := by
  unfold playStart
  rcases h : (initAudio s).audioElement with _ | a
  · have := initAudio_isSome s
    rw [h] at this
    simp at this
  · simp [h]

theorem handleError_audioElement (s : Sys) : (handleError s).audioElement = s.audioElement := by
  simp only [handleError]
  split
  · rfl
  · split <;> rfl

theorem fireTimer_isSome (t : Nat) (s : Sys) (h : s.audioElement.isSome = true) :
    (fireTimer t s).audioElement.isSome = true := by
  simp only [fireTimer]
  split
  · split
    · exact playStart_isSome _
    · exact h
  · exact h

/-- One interaction step preserves the no-audio invariant: while the audio
element was never created, no reconnect timer is remembered or scheduled. -/
theorem step_noAudio_inv {s s2 : Sys} (hstep : Step s s2)
    (ih : s.audioElement = none → s.reconnectTimer = none ∧ s.pendingTimers = []) :
    s2.audioElement = none → s2.reconnectTimer = none ∧ s2.pendingTimers = [] := by
  cases hstep with
  | setIsPlaying b s1 => intro h; exact ih h
  | setIsLoading b s1 => intro h; exact ih h
  | setActiveStation station s1 => intro h; exact ih h
  | setVolume v s1 =>
    intro h
    rcases hA : s.audioElement with _ | a
    · simpa [setVolume, hA] using ih hA
    · simp [setVolume, hA] at h
  | setIsMuted b s1 =>
    intro h
    rcases hA : s.audioElement with _ | a
    · simpa [setIsMuted, hA] using ih hA
    · simp [setIsMuted, hA] at h
  | initAudio s1 =>
    intro h
    have := initAudio_isSome s
    rw [h] at this
    simp at this
  | playStart s1 =>
    intro h
    have := playStart_isSome s
    rw [h] at this
    simp at this
  | playFailed s1 hg =>
    intro h
    have h3 : s.audioElement = none := h
    rw [h3] at hg
    simp at hg
  | pause s1 =>
    intro h
    rcases hA : s.audioElement with _ | a
    · rcases ih hA with ⟨ht, hp⟩
      have hc : clearReconnect s = s := by unfold clearReconnect; rw [ht]
      refine ⟨?_, ?_⟩ <;> simp [RadioStore.pause, hc, hA, ht, hp]
    · have hc : (clearReconnect s).audioElement = some a := by
        rw [clearReconnect_audioElement, hA]
      simp [RadioStore.pause, hc] at h
  | stop s1 =>
    intro h
    rcases hA : s.audioElement with _ | a
    · rcases ih hA with ⟨ht, hp⟩
      have hc : clearReconnect s = s := by unfold clearReconnect; rw [ht]
      refine ⟨?_, ?_⟩ <;> simp [RadioStore.stop, hc, hA, ht, hp]
    · have hc : (clearReconnect s).audioElement = some a := by
        rw [clearReconnect_audioElement, hA]
      simp [RadioStore.stop, hc] at h
  | switchStation station s1 =>
    intro h
    rcases hA : s.audioElement with _ | a
    · rcases ih hA with ⟨ht, hp⟩
      have hc : clearReconnect s = s := by unfold clearReconnect; rw [ht]
      refine ⟨?_, ?_⟩ <;> simp [RadioStore.switchStation, hc, hA, ht, hp]
    · have hc : (clearReconnect s).audioElement = some a := by
        rw [clearReconnect_audioElement, hA]
      simp [RadioStore.switchStation, hc] at h
  | handleLoadStart s1 hg =>
    intro h
    have h3 : s.audioElement = none := h
    rw [h3] at hg
    simp at hg
  | handleCanPlay s1 hg =>
    intro h
    have h3 : s.audioElement = none := by
      simpa [RadioStore.handleCanPlay, clearReconnect_audioElement] using h
    rw [h3] at hg
    simp at hg
  | handlePlay s1 hg =>
    intro h
    have h3 : s.audioElement = none := h
    rw [h3] at hg
    simp at hg
  | handlePause s1 hg =>
    intro h
    have h3 : s.audioElement = none := h
    rw [h3] at hg
    simp at hg
  | handleEnded s1 hg =>
    intro h
    have h3 : s.audioElement = none := h
    rw [h3] at hg
    simp at hg
  | handleError s1 hg =>
    intro h
    have h3 : s.audioElement = none := by rw [← handleError_audioElement s]; exact h
    rw [h3] at hg
    simp at hg
  | fireTimer t s1 hg =>
    intro h
    rcases hA : s.audioElement with _ | a
    · rcases ih hA with ⟨-, hpend⟩
      rw [hpend] at hg
      simp at hg
    · have hsome : (fireTimer t s).audioElement.isSome = true :=
        fireTimer_isSome t s (by rw [hA]; rfl)
      rw [h] at hsome
      simp at hsome

/-- While the audio element was never created, no reconnect timer was ever
remembered or scheduled: the timer machinery only runs from the element's
error listener. -/
theorem reachable_noAudio_inv (s : Sys) (hr : Reachable s) :
    s.audioElement = none → s.reconnectTimer = none ∧ s.pendingTimers = [] := by
  induction hr with
  | init => intro _; exact ⟨rfl, rfl⟩
  | step h1 h2 ih => exact step_noAudio_inv h2 ih

/-- C10.  In every reachable state in which the audio element was never
initialized (`audioElement = none`, i.e. `play()`/`initAudio()` never ran),
`switchStation` changes nothing at all: in particular `activeStation` keeps its
old value instead of switching to the requested station. -/
theorem c10_switch_noop_uninitialized (s : Sys) (station : Station)
    (hr : Reachable s) (h : s.audioElement = none) :
    switchStation station s = s := by
  rcases reachable_noAudio_inv s hr h with ⟨ht, -⟩
  have hc : clearReconnect s = s := by unfold clearReconnect; rw [ht]
  simp [switchStation, hc, h]

/-- C10 witness: switching to rain in the initial state (audio never
initialized) is the identity — the active station stays `code`. -/
theorem c10_switch_noop_uninitialized_witness :
    switchStation Station.rain initialSys = initialSys :=
  c10_switch_noop_uninitialized initialSys Station.rain Reachable.init rfl

end RadioTheorems

end QueenCode
